import Mathlib

/-!
Shallow embedding of the grid-index / chunk-partitioning core of
`yt/geometry/grid_geometry_handler.py` (class `GridIndex`), together with
proofs about its chunking, file-grouping, level-statistics, edge-locking and
point-location entry points.

Conventions:
* Python ints are embedded as `Nat`/`Int` (no overflow occurs at the sizes
  involved); `code_length` floating-point coordinates are embedded as `ℚ`.
* A Python function that can `raise` is embedded as `Except PyErr _`.
* Python generators are embedded as the list of their yields (an exception
  raised mid-iteration makes the whole run an `Except.error`, matching the
  fact that no further element can be obtained from a raised-out generator).
-/

namespace YtGrid

/-- The Python exceptions raised by the code under study. -/
inductive PyErr where
  /-- `raise NotImplementedError` in `_count_selection`. -/
  | notImplementedError : PyErr
  /-- `raise AssertionError(...)` in `_find_points`. -/
  | assertionError : PyErr
  /-- `raise RuntimeError(...)` in `_chunk_io`; carries the offending
  `chunk_sizing` value that is interpolated into the message. -/
  | runtimeError : String → PyErr
  /-- Python `AttributeError`; carries the missing attribute name. -/
  | attributeError : String → PyErr
deriving DecidableEq, Repr

/-! ### Python slicing by `range(0, len(gs), size)`

Both `_setup_filenames` and `_chunk_io` cut a list into consecutive runs with
`for pos in range(0, len(gs), size): gs[pos:pos+size]`.  `posRange stop step`
is `range(0, stop, step)` (for `step > 0` it has `⌈stop/step⌉` elements), and
`slices` is the induced list of slices. -/

/-- Ceiling division on `Nat`: `⌈a / b⌉` for `b > 0`. -/
def ceilDiv (a b : Nat) : Nat := (a + b - 1) / b

/-- Python `range(0, stop, step)` for a positive `step`:
the positions `0, step, 2*step, ...` strictly below `stop`. -/
def posRange (stop step : Nat) : List Nat :=
  (List.range (ceilDiv stop step)).map (· * step)

/-- The Python slice `gs[pos:pos+size]`. -/
def pySlice (gs : List α) (pos size : Nat) : List α :=
  (gs.drop pos).take size

/-- `[gs[pos:pos+size] for pos in range(0, len(gs), size)]`. -/
def slices (size : Nat) (gs : List α) : List (List α) :=
  (posRange gs.length size).map (fun pos => pySlice gs pos size)

/-- Recursive characterization of cutting a list into consecutive runs of
`size` elements (the last run may be shorter): repeatedly take the first
`size` elements and recurse on the rest. -/
def splitRuns (size : Nat) : List α → List (List α)
  | [] => []
  | a :: l => (a :: l).take size :: splitRuns size (l.drop (size - 1))
termination_by l => l.length
decreasing_by simp [List.length_drop]; omega

theorem ceilDiv_zero (b : Nat) : ceilDiv 0 b = 0 := by
  rcases b with _ | b
  · rfl
  · show (0 + (b + 1) - 1) / (b + 1) = 0
    apply Nat.div_eq_of_lt
    omega

theorem ceilDiv_pos_step (n s : Nat) (hs : 0 < s) (hn : 0 < n) :
    ceilDiv n s = (n - 1) / s + 1 := by
  unfold ceilDiv
  have h1 : n + s - 1 = (n - 1) + s := by omega
  rw [h1, Nat.add_div_right _ hs]

theorem ceilDiv_sub (n s : Nat) (hs : 0 < s) (hn : 0 < n) :
    ceilDiv (n - s) s + 1 = ceilDiv n s := by
  rcases Nat.lt_or_ge s n with h | h
  · have hn2 : 0 < n - s := by omega
    rw [ceilDiv_pos_step _ _ hs hn, ceilDiv_pos_step _ _ hs hn2]
    have h2 : n - 1 = (n - s - 1) + s := by omega
    rw [h2, Nat.add_div_right _ hs]
  · have h0 : n - s = 0 := by omega
    rw [h0, ceilDiv_zero, ceilDiv_pos_step _ _ hs hn]
    have h1 : n - 1 < s := by omega
    rw [Nat.div_eq_of_lt h1]

theorem slices_nil (size : Nat) : slices size ([] : List α) = [] := by
  simp [slices, posRange, ceilDiv_zero]

theorem slices_cons (size : Nat) (hs : 0 < size) (gs : List α) (hg : gs ≠ []) :
    slices size gs = gs.take size :: slices size (gs.drop size) := by
  have hn : 0 < gs.length := List.length_pos.mpr hg
  unfold slices posRange
  rw [← ceilDiv_sub gs.length size hs hn, List.range_succ_eq_map]
  simp only [List.map_cons, List.map_map]
  congr 1
  · simp [pySlice]
  · rw [List.length_drop]
    apply List.map_congr_left
    intro i _
    simp only [Function.comp_apply, pySlice]
    rw [Nat.succ_mul, Nat.add_comm, ← List.drop_drop]

theorem slices_eq_splitRuns (size : Nat) (hs : 0 < size) (gs : List α) :
    slices size gs = splitRuns size gs := by
  have H : ∀ n (gs : List α), gs.length ≤ n → slices size gs = splitRuns size gs := by
    intro n
    induction n with
    | zero =>
      intro gs hg
      have : gs = [] := List.eq_nil_of_length_eq_zero (Nat.le_zero.mp hg)
      subst this
      rw [slices_nil, splitRuns]
    | succ n ih =>
      intro gs hg
      cases gs with
      | nil => rw [slices_nil, splitRuns]
      | cons a l =>
        rw [slices_cons size hs (a :: l) (by simp), splitRuns]
        have hdrop : (a :: l).drop size = l.drop (size - 1) := by
          rcases size with _ | s
          · omega
          · simp
        rw [hdrop]
        congr 1
        apply ih
        rw [List.length_drop]
        simp at hg
        omega
  exact H gs.length gs le_rfl

/-- Concatenating the runs gives back the original list. -/
theorem splitRuns_flatten (size : Nat) (hs : 0 < size) (gs : List α) :
    (splitRuns size gs).flatten = gs := by
  have H : ∀ n (gs : List α), gs.length ≤ n → (splitRuns size gs).flatten = gs := by
    intro n
    induction n with
    | zero =>
      intro gs hg
      have : gs = [] := List.eq_nil_of_length_eq_zero (Nat.le_zero.mp hg)
      subst this
      rw [splitRuns]
      rfl
    | succ n ih =>
      intro gs hg
      cases gs with
      | nil => rw [splitRuns]; rfl
      | cons a l =>
        rw [splitRuns, List.flatten_cons]
        have hdrop : l.drop (size - 1) = (a :: l).drop size := by
          rcases size with _ | s
          · omega
          · simp
        rw [hdrop, ih ((a :: l).drop size)
          (by rw [List.length_drop]; simp at hg ⊢; omega)]
        exact List.take_append_drop size (a :: l)
  exact H gs.length gs le_rfl

/-- Every run produced by `splitRuns` has at most `size` elements. -/
theorem splitRuns_length_le (size : Nat) (gs : List α) :
    ∀ r ∈ splitRuns size gs, r.length ≤ size := by
  have H : ∀ n (gs : List α), gs.length ≤ n →
      ∀ r ∈ splitRuns size gs, r.length ≤ size := by
    intro n
    induction n with
    | zero =>
      intro gs hg r hr
      have : gs = [] := List.eq_nil_of_length_eq_zero (Nat.le_zero.mp hg)
      subst this
      rw [splitRuns] at hr
      simp at hr
    | succ n ih =>
      intro gs hg r hr
      cases gs with
      | nil => rw [splitRuns] at hr; simp at hr
      | cons a l =>
        rw [splitRuns] at hr
        rcases List.mem_cons.mp hr with h | h
        · subst h
          rw [List.length_take]
          exact inf_le_left
        · exact ih _ (by rw [List.length_drop]; simp at hg ⊢; omega) r h
  exact H gs.length gs le_rfl

/-- Every run with `size = 1` has exactly one element. -/
theorem splitRuns_one_length (gs : List α) :
    ∀ r ∈ splitRuns 1 gs, r.length = 1 := by
  have H : ∀ n (gs : List α), gs.length ≤ n →
      ∀ r ∈ splitRuns 1 gs, r.length = 1 := by
    intro n
    induction n with
    | zero =>
      intro gs hg r hr
      have : gs = [] := List.eq_nil_of_length_eq_zero (Nat.le_zero.mp hg)
      subst this
      rw [splitRuns] at hr
      simp at hr
    | succ n ih =>
      intro gs hg r hr
      cases gs with
      | nil => rw [splitRuns] at hr; simp at hr
      | cons a l =>
        rw [splitRuns] at hr
        rcases List.mem_cons.mp hr with h | h
        · subst h; simp
        · exact ih _ (by simp at hg ⊢; omega) r h
  exact H gs.length gs le_rfl

/-- Every element of a run comes from the original list. -/
theorem splitRuns_subset (size : Nat) (gs : List α) :
    ∀ r ∈ splitRuns size gs, ∀ x ∈ r, x ∈ gs := by
  have H : ∀ n (gs : List α), gs.length ≤ n →
      ∀ r ∈ splitRuns size gs, ∀ x ∈ r, x ∈ gs := by
    intro n
    induction n with
    | zero =>
      intro gs hg r hr
      have : gs = [] := List.eq_nil_of_length_eq_zero (Nat.le_zero.mp hg)
      subst this
      rw [splitRuns] at hr
      simp at hr
    | succ n ih =>
      intro gs hg r hr x hx
      cases gs with
      | nil => rw [splitRuns] at hr; simp at hr
      | cons a l =>
        rw [splitRuns] at hr
        rcases List.mem_cons.mp hr with h | h
        · subst h
          exact (List.take_sublist _ _).mem hx
        · have := ih _ (by rw [List.length_drop]; simp at hg ⊢; omega) r h x hx
          exact List.mem_cons_of_mem a ((List.drop_sublist _ _).mem this)
  exact H gs.length gs le_rfl

end YtGrid

namespace YtGrid

/-! ### `_chunk_io` (grid_geometry_handler.py, lines 399-452)

The io-strategy chunker.  Its inputs, as read off the source:
* `self.dataset._grid_chunk_size` — the dataset's configured grid chunk size
  (`None`/`0` falls back to the enormous `2 << 32`);
* `ytcfg.getint("yt", "__global_parallel_size")` — the worker count;
* `ytcfg.getint("yt", "chunk_size")` — the `config_file` fixed size;
* the selection's grids (`indexer.cell_count_by_grid`), whose number drives
  the `auto` heuristic;
* the backing files of the selection (`dobj._chunk_info`), each carrying its
  `grid_id_values` list;
* the `chunk_sizing` mode string.

For each file the generator yields one `YTDataChunk` per slice
`gs[pos:pos+size]` of the file's grid-id list (`pos in range(0, len(gs), size)`);
the chunk is built from that batch of grid ids (via a fresh selector restricted
to the batch's mask).  We embed the yielded stream as the list of
(file, batch) pairs; the selector machinery lives outside `src` and does not
affect which batches are formed.  `np.ceil` of the float64 quotient is
embedded as exact ceiling division. -/

/-- `self.dataset._grid_chunk_size or (2 << 32)`: Python `or` replaces the
falsy values `None` and `0` by the default `2 << 32`. -/
def gridChunkSizeOr (cfg : Option Nat) : Nat :=
  match cfg with
  | some n => if n = 0 then 2 <<< 32 else n
  | none => 2 <<< 32

theorem gridChunkSizeOr_pos (cfg : Option Nat) : 0 < gridChunkSizeOr cfg := by
  have h32 : 0 < (2 <<< 32 : Nat) := by
    rw [Nat.shiftLeft_eq]
    positivity
  match cfg with
  | none => exact h32
  | some n =>
    by_cases hn : n = 0
    · simp [gridChunkSizeOr, hn, h32]
    · simp [gridChunkSizeOr, hn]
      omega

/-- A backing data file as `_chunk_io` sees it: `f.grid_id_values` is the
sorted list of grid ids stored by this file record. -/
structure DataFile where
  grid_id_values : List Int
deriving DecidableEq, Repr

/-- One yielded io chunk: the backing file it came from and the batch
`g_indices` of grid ids it covers. -/
structure IOChunk where
  file : DataFile
  batch : List Int
deriving DecidableEq, Repr

/-- Modelled from the spec: the attribute lookup `self._grid_chunksize` in the
zero-grid branch of `_chunk_io`.  Class `GridIndex` in `src` defines no such
attribute, the spec's configuration surface (§6) lists none, and §9 states the
zero-grid behavior is undefined in the original; the lookup is therefore
modelled as absent, so reading it is an `AttributeError`. -/
def grid_chunksize_attr : Option Nat := none

/-- Embedding of `GridIndex._chunk_io`.  Computes the batch `size` from the
`chunk_sizing` mode, then for every backing file yields one chunk per slice
`gs[pos:pos+size]` of the file's `grid_id_values`. -/
def chunk_io (dsGridChunkSize : Option Nat) (nproc cfgChunkSize : Nat)
    (selectedGrids : List Int) (fobjs : List DataFile) (chunk_sizing : String) :
    Except PyErr (List IOChunk) :=
  let GRID_CHUNKSIZE := gridChunkSizeOr dsGridChunkSize
  let sizeE : Except PyErr Nat :=
    if chunk_sizing = "auto" then
      let chunk_ngrids := selectedGrids.length
      if 0 < chunk_ngrids then
        let chunking_factor := ceilDiv (GRID_CHUNKSIZE * nproc) chunk_ngrids
        Except.ok (max (GRID_CHUNKSIZE / chunking_factor) 1)
      else
        match grid_chunksize_attr with
        | some s => Except.ok s
        | none => Except.error (PyErr.attributeError "_grid_chunksize")
    else if chunk_sizing = "config_file" then Except.ok cfgChunkSize
    else if chunk_sizing = "just_one" then Except.ok 1
    else if chunk_sizing = "old" then Except.ok GRID_CHUNKSIZE
    else Except.error (PyErr.runtimeError chunk_sizing)
  match sizeE with
  | Except.error e => Except.error e
  | Except.ok size =>
      Except.ok (fobjs.flatMap (fun f =>
        (slices size f.grid_id_values).map (fun b => ⟨f, b⟩)))

end YtGrid

namespace YtGrid

/-- The batch size the source computes for `chunk_sizing="auto"` when the
selection holds `ngrids > 0` grids. -/
def autoSize (GRID_CHUNKSIZE nproc ngrids : Nat) : Nat :=
  max (GRID_CHUNKSIZE / ceilDiv (GRID_CHUNKSIZE * nproc) ngrids) 1

theorem autoSize_pos (g n k : Nat) : 0 < autoSize g n k :=
  lt_of_lt_of_le Nat.one_pos (Nat.le_max_right _ 1)

/-- Unfolding lemma: `chunk_io` in mode `auto` on a selection with at least
one grid succeeds and yields, file by file, one chunk per slice of `autoSize`
grid ids. -/
theorem chunk_io_auto_eq (dsGCS : Option Nat) (nproc cfgCS : Nat)
    (selectedGrids : List Int) (fobjs : List DataFile)
    (hsel : 0 < selectedGrids.length) :
    chunk_io dsGCS nproc cfgCS selectedGrids fobjs "auto" =
      Except.ok (fobjs.flatMap (fun f =>
        (slices (autoSize (gridChunkSizeOr dsGCS) nproc selectedGrids.length)
          f.grid_id_values).map (fun b => IOChunk.mk f b))) := by
  unfold chunk_io autoSize
  simp only [if_pos rfl, if_pos hsel, if_true]

/-- **C1** — For every io-strategy chunking call with `chunk_sizing="auto"`
and a selection containing at least one grid (and at least one parallel
worker, as the worker count is in the arithmetic's denominator position), the
computed batch size equals
`max(default_chunk_size / ceil(default_chunk_size * worker_count / grids_in_file), 1)`
— integer division outside, ceiling division inside — and the yielded chunks
are exactly each backing file's grid-id list cut into successive runs of that
size. -/
theorem chunk_io_auto_batches (dsGCS : Option Nat) (nproc cfgCS : Nat)
    (selectedGrids : List Int) (fobjs : List DataFile)
    (_hproc : 0 < nproc) (hsel : 0 < selectedGrids.length) :
    chunk_io dsGCS nproc cfgCS selectedGrids fobjs "auto" =
      Except.ok (fobjs.flatMap (fun f =>
        (splitRuns (max (gridChunkSizeOr dsGCS /
            ceilDiv (gridChunkSizeOr dsGCS * nproc) selectedGrids.length) 1)
          f.grid_id_values).map (fun b => IOChunk.mk f b))) := by
  have hS : ∀ gs : List Int,
      slices (autoSize (gridChunkSizeOr dsGCS) nproc selectedGrids.length) gs =
      splitRuns (max (gridChunkSizeOr dsGCS /
          ceilDiv (gridChunkSizeOr dsGCS * nproc) selectedGrids.length) 1) gs := by
    intro gs
    rw [slices_eq_splitRuns _ (autoSize_pos _ _ _) gs]
    rfl
  rw [chunk_io_auto_eq dsGCS nproc cfgCS selectedGrids fobjs hsel]
  simp only [hS]

/-- Witness for `chunk_io_auto_batches`: dataset chunk size 8, 3 workers, a
5-grid selection (`ceil(8*3/5) = 5`, `size = max(8/5, 1) = 1`), one backing
file holding grids 10, 11, 12. -/
theorem chunk_io_auto_batches_witness :
    chunk_io (some 8) 3 0 [0, 1, 2, 3, 4] [DataFile.mk [10, 11, 12]] "auto" =
      Except.ok ([DataFile.mk [10, 11, 12]].flatMap (fun f =>
        (splitRuns (max (gridChunkSizeOr (some 8) /
            ceilDiv (gridChunkSizeOr (some 8) * 3) ([0, 1, 2, 3, 4] : List Int).length) 1)
          f.grid_id_values).map (fun b => IOChunk.mk f b))) :=
  chunk_io_auto_batches (some 8) 3 0 [0, 1, 2, 3, 4] [DataFile.mk [10, 11, 12]]
    (by decide) (by decide)

end YtGrid

namespace YtGrid

/-- Unfolding lemma: `chunk_io` in mode `just_one` slices every file's grid-id
list into runs of 1. -/
theorem chunk_io_just_one_eq (dsGCS : Option Nat) (nproc cfgCS : Nat)
    (selectedGrids : List Int) (fobjs : List DataFile) :
    chunk_io dsGCS nproc cfgCS selectedGrids fobjs "just_one" =
      Except.ok (fobjs.flatMap (fun f =>
        (slices 1 f.grid_id_values).map (fun b => IOChunk.mk f b))) := by
  unfold chunk_io
  rfl

/-- Unfolding lemma: `chunk_io` in mode `old` slices every file's grid-id list
into runs of the raw `GRID_CHUNKSIZE`. -/
theorem chunk_io_old_eq (dsGCS : Option Nat) (nproc cfgCS : Nat)
    (selectedGrids : List Int) (fobjs : List DataFile) :
    chunk_io dsGCS nproc cfgCS selectedGrids fobjs "old" =
      Except.ok (fobjs.flatMap (fun f =>
        (slices (gridChunkSizeOr dsGCS) f.grid_id_values).map
          (fun b => IOChunk.mk f b))) := by
  unfold chunk_io
  rfl

/-- **C5** — For every io-strategy chunking call, sizing mode `just_one`
yields chunks whose batch contains exactly one grid each, and sizing mode
`old` yields chunks whose batch contains at most `GRID_CHUNKSIZE`
(= `dataset._grid_chunk_size or 2 << 32`) grids. -/
theorem chunk_io_just_one_and_old (dsGCS : Option Nat) (nproc cfgCS : Nat)
    (selectedGrids : List Int) (fobjs : List DataFile)
    (cs₁ cs₂ : List IOChunk)
    (h₁ : chunk_io dsGCS nproc cfgCS selectedGrids fobjs "just_one" = Except.ok cs₁)
    (h₂ : chunk_io dsGCS nproc cfgCS selectedGrids fobjs "old" = Except.ok cs₂) :
    (∀ c ∈ cs₁, c.batch.length = 1) ∧
    (∀ c ∈ cs₂, c.batch.length ≤ gridChunkSizeOr dsGCS) := by
  rw [chunk_io_just_one_eq] at h₁
  rw [chunk_io_old_eq] at h₂
  constructor
  · intro c hc
    replace h₁ := (Except.ok.inj h₁)
    subst h₁
    rcases List.mem_flatMap.mp hc with ⟨f, _, hcf⟩
    rcases List.mem_map.mp hcf with ⟨b, hb, hbc⟩
    rw [slices_eq_splitRuns 1 Nat.one_pos] at hb
    have := splitRuns_one_length f.grid_id_values b hb
    rw [← hbc]
    exact this
  · intro c hc
    replace h₂ := (Except.ok.inj h₂)
    subst h₂
    rcases List.mem_flatMap.mp hc with ⟨f, _, hcf⟩
    rcases List.mem_map.mp hcf with ⟨b, hb, hbc⟩
    rw [slices_eq_splitRuns _ (gridChunkSizeOr_pos dsGCS)] at hb
    have := splitRuns_length_le (gridChunkSizeOr dsGCS) f.grid_id_values b hb
    rw [← hbc]
    exact this

/-- Witness for `chunk_io_just_one_and_old`: one backing file with grids
5, 6, 7; `just_one` yields batches `[5]`, `[6]`, `[7]`; with
`_grid_chunk_size = 2`, `old` yields batches `[5, 6]`, `[7]`. -/
theorem chunk_io_just_one_and_old_witness :
    (IOChunk.mk (DataFile.mk [5, 6, 7]) [5]).batch.length = 1 ∧
    (IOChunk.mk (DataFile.mk [5, 6, 7]) [5, 6]).batch.length ≤
      gridChunkSizeOr (some 2) := by
  have h := chunk_io_just_one_and_old (some 2) 1 0 [] [DataFile.mk [5, 6, 7]]
    [IOChunk.mk (DataFile.mk [5, 6, 7]) [5], IOChunk.mk (DataFile.mk [5, 6, 7]) [6],
     IOChunk.mk (DataFile.mk [5, 6, 7]) [7]]
    [IOChunk.mk (DataFile.mk [5, 6, 7]) [5, 6], IOChunk.mk (DataFile.mk [5, 6, 7]) [7]]
    (by rfl) (by rfl)
  exact ⟨h.1 _ (by simp), h.2 _ (by simp)⟩

/-- **C6** — For every io-strategy chunking call whose `chunk_sizing` argument
is not one of `auto`, `config_file`, `just_one`, `old`, the call fails with
`RuntimeError` during setup, before any chunk is yielded (the result carries
no chunk list at all). -/
theorem chunk_io_invalid_mode (dsGCS : Option Nat) (nproc cfgCS : Nat)
    (selectedGrids : List Int) (fobjs : List DataFile) (mode : String)
    (h1 : mode ≠ "auto") (h2 : mode ≠ "config_file")
    (h3 : mode ≠ "just_one") (h4 : mode ≠ "old") :
    chunk_io dsGCS nproc cfgCS selectedGrids fobjs mode =
      Except.error (PyErr.runtimeError mode) := by
  unfold chunk_io
  simp only [if_neg h1, if_neg h2, if_neg h3, if_neg h4]

/-- Witness for `chunk_io_invalid_mode` at the unrecognized mode `banana`. -/
theorem chunk_io_invalid_mode_witness :
    chunk_io none 1 0 [] [] "banana" =
      Except.error (PyErr.runtimeError "banana") :=
  chunk_io_invalid_mode none 1 0 [] [] "banana"
    (by decide) (by decide) (by decide) (by decide)

/-- **C10** — For every io-strategy chunking call with `chunk_sizing="auto"`
whose selection contains zero grids, the batch-size computation does not fall
back to batch size 1 but reads the attribute `_grid_chunksize`, which the
class does not define, so the call raises `AttributeError` before yielding
any chunk. -/
theorem chunk_io_auto_zero_grids (dsGCS : Option Nat) (nproc cfgCS : Nat)
    (fobjs : List DataFile) :
    chunk_io dsGCS nproc cfgCS [] fobjs "auto" =
      Except.error (PyErr.attributeError "_grid_chunksize") := by
  unfold chunk_io grid_chunksize_attr
  rfl

end YtGrid

namespace YtGrid

/-! ### `_count_selection`, `_chunk_all`, `_chunk_spatial` (lines 361-397)

`_count_selection(self, dobj, grids=None, indexer=None)` returns
`indexer.count(dobj.selector)` when an indexer is passed, and otherwise hits
an unconditional `raise NotImplementedError`; the grid-summing code after the
raise (`sum(g.count(dobj.selector) for g in grids)`) is unreachable.
`_chunk_all` yields a single chunk carrying `dobj.size`, which
`_identify_base_chunk` has set to `indexer.count(dobj.selector)`.
`_chunk_spatial` iterates the selection's grids (optionally sorted by level)
and sizes each one-grid chunk with `self._count_selection(dobj, [og])` —
passing no indexer. -/

/-- A grid as `_chunk_spatial` consumes it: its id and refinement level
(`g.Level`), the only attributes the loop reads before counting. -/
structure SpGrid where
  id : Int
  level : Int
deriving DecidableEq, Repr

/-- Embedding of `GridIndex._count_selection`.  `indexerCount` is
`indexer.count(dobj.selector)` when an indexer object was passed (`none`
embeds Python's default `indexer=None`). -/
def count_selection (indexerCount : Option Nat) (_grids : Option (List SpGrid)) :
    Except PyErr Nat :=
  match indexerCount with
  | some c => Except.ok c
  | none => Except.error PyErr.notImplementedError

/-- Embedding of `GridIndex._chunk_all`: one chunk covering all the
selection's file objects whose cell count is `dobj.size`. -/
def chunk_all (fobjs : List DataFile) (dobjSize : Nat) : List (List DataFile × Nat) :=
  [(fobjs, dobjSize)]

/-- The `sort` argument of `_chunk_spatial` (`"+level"`/`"level"`,
`"-level"`, or `None`). -/
inductive SpatialSort where
  | plusLevel : SpatialSort
  | minusLevel : SpatialSort
deriving DecidableEq, Repr

/-- A yielded spatial chunk: its single (possibly ghost-extended) grid's
identity and the computed cell count. -/
structure SpatialChunk where
  objs : List SpGrid
  size : Nat
deriving DecidableEq, Repr

/-- The optional level ordering applied by `_chunk_spatial` (Python `sorted`
is stable; so is `List.mergeSort`). -/
def spatialOrder (sort : Option SpatialSort) (gobjs : List SpGrid) : List SpGrid :=
  match sort with
  | some SpatialSort.plusLevel => gobjs.mergeSort (fun a b => decide (a.level ≤ b.level))
  | some SpatialSort.minusLevel => gobjs.mergeSort (fun a b => decide (b.level ≤ a.level))
  | none => gobjs

/-- The per-grid loop of `_chunk_spatial`: size each grid by
`self._count_selection(dobj, [og])` — with no indexer — skip empty grids,
yield the rest as one-grid chunks. -/
def chunk_spatial_loop : List SpGrid → Except PyErr (List SpatialChunk)
  | [] => Except.ok []
  | og :: rest =>
    match count_selection none (some [og]) with
    | Except.error e => Except.error e
    | Except.ok size =>
      match chunk_spatial_loop rest with
      | Except.error e => Except.error e
      | Except.ok tail =>
        if size = 0 then Except.ok tail
        else Except.ok (SpatialChunk.mk [og] size :: tail)

/-- Embedding of `GridIndex._chunk_spatial` (the ghost-zone view built for
`ngz > 0` replaces the chunk's grid object but plays no part in the sizing
call, which happens on the original grid `og`). -/
def chunk_spatial (gobjs : List SpGrid) (_ngz : Nat) (sort : Option SpatialSort) :
    Except PyErr (List SpatialChunk) :=
  chunk_spatial_loop (spatialOrder sort gobjs)

/-- **C2** — the claim (sum of spatial chunk cell counts = the all chunk's
cell count) fails on the code as written: on the selection consisting of the
single grid `0` the all strategy yields its one chunk, but the spatial
strategy never yields anything — its very first sizing call
`_count_selection(dobj, [og])` passes no indexer and therefore hits the
unconditional `raise NotImplementedError` that precedes the (dead)
grid-summing path. -/
theorem chunk_spatial_raises_on_first_grid :
    chunk_spatial [SpGrid.mk 0 0] 0 none = Except.error PyErr.notImplementedError ∧
    chunk_all [DataFile.mk [0]] 8 = [([DataFile.mk [0]], 8)] :=
  ⟨rfl, rfl⟩

end YtGrid

namespace YtGrid

/-! ### `lock_grids_to_parents` (lines 180-195) and `_get_grid_tree`
(lines 39, 284-312)

`lock_grids_to_parents` rewrites, for every grid,
`g.LeftEdge = self.ds.domain_left_edge + g.dds * g.get_global_startindex()`
and `g.RightEdge = g.LeftEdge + g.ActiveDimensions * g.dds`, copying both back
into the synchronized `grid_left_edge` / `grid_right_edge` arrays.  Nothing in
its body touches the memoized `_grid_tree` slot.  `_get_grid_tree` returns the
memoized tree when `self._grid_tree is not None` and otherwise builds a
`GridTree` from the grids' current edges, levels, parent links, children
counts and dimensions, memoizing it. -/

/-- A `code_length` 3-vector. -/
abbrev Vec3 := ℚ × ℚ × ℚ

/-- An integer 3-vector. -/
abbrev IVec3 := ℤ × ℤ × ℤ

/-- A dimensions 3-vector. -/
abbrev NVec3 := ℕ × ℕ × ℕ

/-- Componentwise sum. -/
def vadd (a b : Vec3) : Vec3 := (a.1 + b.1, a.2.1 + b.2.1, a.2.2 + b.2.2)

/-- Componentwise product with an integer vector (`g.dds * si`). -/
def vmulI (a : Vec3) (i : IVec3) : Vec3 :=
  (a.1 * (i.1 : ℚ), a.2.1 * (i.2.1 : ℚ), a.2.2 * (i.2.2 : ℚ))

/-- Componentwise product with a dimensions vector
(`g.ActiveDimensions * g.dds`). -/
def vmulN (a : Vec3) (n : NVec3) : Vec3 :=
  (a.1 * (n.1 : ℚ), a.2.1 * (n.2.1 : ℚ), a.2.2 * (n.2.2 : ℚ))

/-- A grid object as `lock_grids_to_parents` and `_get_grid_tree` consume it.
`dds` (the cell width, fixed by the level's refinement) and `startIndex`
(`get_global_startindex()`, memoized by the grid object on first use) live on
the grid class outside `src`; modelled from the spec (§4.1: the relock uses
"its cell width times its integer start-index offset"), they are intrinsic
per-grid values independent of the current edges. -/
structure LGrid where
  dds : Vec3
  startIndex : IVec3
  activeDimensions : NVec3
  leftEdge : Vec3
  rightEdge : Vec3
  level : ℕ
  parent : Option ℕ
  numChildren : ℕ
deriving DecidableEq

/-- The arrays handed to the `GridTree` constructor by `_get_grid_tree` (the
constructor itself is Cython code outside `src`; we record exactly its
arguments, which determine the tree). -/
structure GridTree where
  num_grids : ℕ
  left_edge : List Vec3
  right_edge : List Vec3
  dimensions : List NVec3
  parent_ind : List ℤ
  level : List ℕ
  num_children : List ℕ
deriving DecidableEq

/-- The mutable state of a `GridIndex` that these two methods see: the grid
objects, the synchronized edge arrays, and the memoized `_grid_tree`. -/
structure GridIndexState where
  domain_left_edge : Vec3
  grids : List LGrid
  grid_left_edge : List Vec3
  grid_right_edge : List Vec3
  grid_tree_memo : Option GridTree
deriving DecidableEq

/-- One iteration of the `lock_grids_to_parents` loop on grid `g`. -/
def lockGrid (dle : Vec3) (g : LGrid) : LGrid :=
  let le := vadd dle (vmulI g.dds g.startIndex)
  { g with leftEdge := le,
           rightEdge := vadd le (vmulN g.dds g.activeDimensions) }

/-- Embedding of `GridIndex.lock_grids_to_parents`: recompute every grid's
edges and write them back into the edge arrays.  The body never mentions
`_grid_tree`, so the memo slot is carried over unchanged. -/
def lock_grids_to_parents (s : GridIndexState) : GridIndexState :=
  let grids := s.grids.map (lockGrid s.domain_left_edge)
  { s with grids := grids,
           grid_left_edge := grids.map (·.leftEdge),
           grid_right_edge := grids.map (·.rightEdge) }

/-- The `GridTree(...)` call at the end of `_get_grid_tree`, applied to the
arrays collected from the current grids. -/
def build_grid_tree (s : GridIndexState) : GridTree where
  num_grids := s.grids.length
  left_edge := s.grids.map (·.leftEdge)
  right_edge := s.grids.map (·.rightEdge)
  dimensions := s.grids.map (·.activeDimensions)
  parent_ind := s.grids.map (fun g =>
    match g.parent with
    | none => -1
    | some p => (p : ℤ))
  level := s.grids.map (·.level)
  num_children := s.grids.map (·.numChildren)

/-- Embedding of `GridIndex._get_grid_tree`: return the memoized tree if one
is present, else build one from the current state and memoize it. -/
def get_grid_tree (s : GridIndexState) : GridTree × GridIndexState :=
  match s.grid_tree_memo with
  | some t => (t, s)
  | none =>
    let t := build_grid_tree s
    (t, { s with grid_tree_memo := some t })

/-- **C3** — applying `lock_grids_to_parents` twice in succession leaves every
grid's left and right edge arrays identical to applying it once: the relocked
edges depend only on the domain edge and on each grid's cell width,
start index and dimensions, none of which the relock changes. -/
theorem lock_grids_to_parents_idempotent (s : GridIndexState) :
    (lock_grids_to_parents (lock_grids_to_parents s)).grid_left_edge =
      (lock_grids_to_parents s).grid_left_edge ∧
    (lock_grids_to_parents (lock_grids_to_parents s)).grid_right_edge =
      (lock_grids_to_parents s).grid_right_edge := by
  have hg : ∀ g, lockGrid s.domain_left_edge (lockGrid s.domain_left_edge g) =
      lockGrid s.domain_left_edge g := fun g => rfl
  constructor <;>
    simp [lock_grids_to_parents, List.map_map, Function.comp_def, hg]

end YtGrid

namespace YtGrid

/-- A one-grid index before any tree is built: unit cell width, global start
index 1, so relocking moves the left edge from `0` to `1`. -/
def c4Base : GridIndexState where
  domain_left_edge := (0, 0, 0)
  grids := [{ dds := (1, 1, 1), startIndex := (1, 1, 1),
              activeDimensions := (1, 1, 1), leftEdge := (0, 0, 0),
              rightEdge := (1, 1, 1), level := 0, parent := none,
              numChildren := 0 }]
  grid_left_edge := [(0, 0, 0)]
  grid_right_edge := [(1, 1, 1)]
  grid_tree_memo := none

/-- The tree `_get_grid_tree` builds (and memoizes) from `c4Base` before the
relock. -/
def c4Tree : GridTree := build_grid_tree c4Base

/-- `c4Base` after its tree has been built and memoized. -/
def c4State : GridIndexState := { c4Base with grid_tree_memo := some c4Tree }

/-- **C4 counterexample** — on the concrete one-grid index `c4State`, whose
tree is built and memoized, calling `lock_grids_to_parents` and then
accessing the tree does *not* return a tree rebuilt from the relocked edges:
the access returns the stale memoized tree (left edge still `0`, though the
relocked edge array says `1`), refuting the claim as stated. -/
theorem lock_stale_tree_counterexample :
    (get_grid_tree (lock_grids_to_parents c4State)).1 ≠
      build_grid_tree (lock_grids_to_parents c4State) ∧
    (lock_grids_to_parents c4State).grid_left_edge = [(1, 1, 1)] := by
  constructor
  · intro h
    have h2 := congrArg GridTree.left_edge h
    simp [get_grid_tree, lock_grids_to_parents, build_grid_tree, c4State,
      c4Tree, c4Base, lockGrid, vadd, vmulI, vmulN] at h2
  · simp [lock_grids_to_parents, c4State, c4Base, lockGrid, vadd, vmulI, vmulN]

/-- **C4 (amended)** — `lock_grids_to_parents` mutates the grid edge arrays
in place but does not invalidate a built (memoized) GridTree: for every index
state holding a memoized tree, the relock keeps that tree memoized and the
next tree access returns it unchanged (built from the pre-lock edges), not a
tree rebuilt from the relocked edges. -/
theorem lock_keeps_memoized_tree (s : GridIndexState) (t : GridTree)
    (h : s.grid_tree_memo = some t) :
    (get_grid_tree (lock_grids_to_parents s)).1 = t ∧
    (lock_grids_to_parents s).grid_tree_memo = some t := by
  have h2 : (lock_grids_to_parents s).grid_tree_memo = some t := h
  refine ⟨?_, h2⟩
  unfold get_grid_tree
  rw [h2]

/-- Witness for `lock_keeps_memoized_tree` at the concrete state `c4State`. -/
theorem lock_keeps_memoized_tree_witness :
    (get_grid_tree (lock_grids_to_parents c4State)).1 = c4Tree ∧
    (lock_grids_to_parents c4State).grid_tree_memo = some c4Tree :=
  lock_keeps_memoized_tree c4State c4Tree rfl

end YtGrid

namespace YtGrid

/-! ### `_find_points` (lines 265-278)

`_find_points(self, x, y, z)` first checks
`if not len(x) == len(y) == len(z): raise AssertionError(...)`, and only then
fetches the grid tree (`self._get_grid_tree()`) and runs the Cython point
search `MatchPointsToGrids(...).find_points_in_tree()`. -/

/-- Closed-box containment test of a point in a grid's box. -/
def ptInGrid (le re p : Vec3) : Bool :=
  decide (le.1 ≤ p.1) && decide (p.1 ≤ re.1) &&
  decide (le.2.1 ≤ p.2.1) && decide (p.2.1 ≤ re.2.1) &&
  decide (le.2.2 ≤ p.2.2) && decide (p.2.2 ≤ re.2.2)

/-- Modelled from the spec: the per-point resolution of
`MatchPointsToGrids.find_points_in_tree` (Cython, not under `src`).  Per
§4.2, each point resolves to the most-refined (deepest) grid containing it,
boundary ties broken toward the later grid index, and to the sentinel `-1`
when no grid contains it. -/
def findPointIndex (t : GridTree) (p : Vec3) : ℤ :=
  let cands := (((t.left_edge.zip t.right_edge).zip t.level).enum).filter
    (fun c => ptInGrid c.2.1.1 c.2.1.2 p)
  match cands.foldl (fun best c =>
      match best with
      | none => some c
      | some b =>
        if b.2.2 < c.2.2 ∨ (b.2.2 = c.2.2 ∧ b.1 ≤ c.1) then some c else some b)
    none with
  | none => -1
  | some c => (c.1 : ℤ)

/-- Embedding of `GridIndex._find_points`: validate that the coordinate
sequences have equal lengths, then fetch the (possibly memoized) grid tree
and resolve every point; returns the per-point grid indices and the updated
index state (the tree may have just been built and memoized). -/
def find_points (s : GridIndexState) (x y z : List ℚ) :
    Except PyErr (List ℤ) × GridIndexState :=
  if x.length = y.length ∧ y.length = z.length then
    let ts := get_grid_tree s
    (Except.ok ((x.zip (y.zip z)).map
      (fun p => findPointIndex ts.1 (p.1, p.2.1, p.2.2))), ts.2)
  else
    (Except.error PyErr.assertionError, s)

/-- **C7** — a point-location query whose three coordinate sequences do not
all have equal length raises `AssertionError` immediately: the result is the
error with the index state returned untouched — in particular no grid tree
was fetched or built, and no list of resolved points, complete or not,
exists. -/
theorem find_points_length_mismatch (s : GridIndexState) (x y z : List ℚ)
    (h : ¬ (x.length = y.length ∧ y.length = z.length)) :
    find_points s x y z = (Except.error PyErr.assertionError, s) := by
  unfold find_points
  rw [if_neg h]

/-- An index state over no grids at all, for concrete evaluation. -/
def emptyIndexState : GridIndexState where
  domain_left_edge := (0, 0, 0)
  grids := []
  grid_left_edge := []
  grid_right_edge := []
  grid_tree_memo := none

/-- Witness for `find_points_length_mismatch`: one x-coordinate, no y or z
coordinates. -/
theorem find_points_length_mismatch_witness :
    find_points emptyIndexState [0] [] [] =
      (Except.error PyErr.assertionError, emptyIndexState) :=
  find_points_length_mismatch emptyIndexState [0] [] [] (by decide)

end YtGrid

namespace YtGrid

/-! ### The level statistics pass (lines 151-165)

After geometry setup, for every `level in range(self.max_level+1)` the code
records `numgrids = np.sum(self.grid_levels == level)` and
`numcells = self.grid_dimensions[li,:].prod(axis=1).sum()` where
`li = (self.grid_levels[:,0] == level)` boolean-masks the dimension rows. -/

/-- A grid as the statistics pass sees it: its `grid_levels` entry and its
`grid_dimensions` row. -/
structure StatGrid where
  level : ℕ
  dims : NVec3
deriving DecidableEq, Repr

/-- `np.sum(self.grid_levels == level)`: how many grids sit at `level`. -/
def numgrids (grids : List StatGrid) (level : ℕ) : ℕ :=
  ((grids.map (·.level)).filter (fun l => l = level)).length

/-- `self.grid_dimensions[li,:].prod(axis=1).sum()` with the rows masked by
`self.grid_levels[:,0] == level`: keep each dimension row whose grid sits at
`level`, take the row product, and sum. -/
def numcells (grids : List StatGrid) (level : ℕ) : ℕ :=
  (((((grids.map (·.level)).zip (grids.map (·.dims)))).filter
      (fun r => r.1 = level)).map
    (fun r => r.2.1 * r.2.2.1 * r.2.2.2)).sum

/-- The per-level `(numgrids, numcells)` records computed by the statistics
loop for levels `0 .. max_level` (rows above `max_level` stay zero in the
preallocated record array and are omitted here). -/
def level_stats (grids : List StatGrid) (max_level : ℕ) : List (ℕ × ℕ) :=
  (List.range (max_level + 1)).map
    (fun lvl => (numgrids grids lvl, numcells grids lvl))

/-- The example hierarchy: 3 level-0 grids of 8×8×8 cells and 2 level-1 grids
of 4×4×4 cells. -/
def exampleStatGrids : List StatGrid :=
  [⟨0, (8, 8, 8)⟩, ⟨0, (8, 8, 8)⟩, ⟨0, (8, 8, 8)⟩, ⟨1, (4, 4, 4)⟩, ⟨1, (4, 4, 4)⟩]

/-- **C8** — on the example hierarchy of 3 level-0 grids of 8×8×8 cells and 2
level-1 grids of 4×4×4 cells the statistics pass records level 0 = (3 grids,
1536 cells) and level 1 = (2 grids, 128 cells); and in general every level's
cell count is the sum, over that level's grids, of the product of their three
active dimensions. -/
theorem level_stats_example_and_general :
    level_stats exampleStatGrids 1 = [(3, 1536), (2, 128)] ∧
    ∀ (grids : List StatGrid) (lvl : ℕ),
      numcells grids lvl =
        ((grids.filter (fun g => g.level = lvl)).map
          (fun g => g.dims.1 * g.dims.2.1 * g.dims.2.2)).sum := by
  constructor
  · rfl
  · intro grids lvl
    induction grids with
    | nil => rfl
    | cons g gs ih =>
      by_cases h : g.level = lvl
      · simp only [numcells, List.map_cons, List.zip_cons_cons,
          List.filter_cons] at ih ⊢
        simp [h, ih]
      · simp only [numcells, List.map_cons, List.zip_cons_cons,
          List.filter_cons] at ih ⊢
        simp [h, ih]

end YtGrid

namespace YtGrid

/-! ### `_setup_filenames` (lines 72-93)

Buckets the grids by `g.filename` (appending `g.id - g._id_offset` in grid
order), sorts each bucket ascending, then walks the buckets in
`sorted(grids_by_file.items())` order, cutting each into
`grids[i:i+GRID_CHUNKSIZE]` runs and emitting one data-file record per run
with the running index `fi` (incremented across all files). -/

/-- A grid as `_setup_filenames` sees it: declared source filename, id and
id offset. -/
structure FNGrid where
  filename : String
  id : Int
  idOffset : Int
deriving DecidableEq, Repr

/-- One emitted data-file record `cls(self.dataset, self.io, fn, fi, grids_)`:
its filename, its sequential index `fi`, and its run of grid ids. -/
structure BackingFile where
  filename : String
  index : ℕ
  gridIdValues : List Int
deriving DecidableEq, Repr

/-- The bucket `grids_by_file[fn]` before sorting: the offset-corrected ids
of the grids declaring `fn`, in grid order. -/
def gridsByFile (grids : List FNGrid) (fn : String) : List Int :=
  (grids.filter (fun g => g.filename = fn)).map (fun g => g.id - g.idOffset)

/-- `grids_by_file[fn].sort()` (Python list.sort and `List.mergeSort` are
both stable ascending sorts). -/
def sortBucket (l : List Int) : List Int :=
  l.mergeSort (fun a b => decide (a ≤ b))

/-- The key order of `sorted(grids_by_file.items())`: the distinct declared
filenames, sorted (Python compares strings lexicographically by code point,
as does `String.lt`). -/
def sortedFilenames (grids : List FNGrid) : List String :=
  ((grids.map (·.filename)).dedup).mergeSort (fun a b => !decide (b < a))

/-- The stream of `(fn, grids_)` pairs the double loop of `_setup_filenames`
walks: for each filename in `sorted(grids_by_file.items())` order, the slices
`grids[i:i+GRID_CHUNKSIZE]` of its sorted bucket. -/
def taggedRuns (dsGridChunkSize : Option Nat) (grids : List FNGrid) :
    List (String × List Int) :=
  (sortedFilenames grids).flatMap (fun fn =>
    (slices (gridChunkSizeOr dsGridChunkSize)
      (sortBucket (gridsByFile grids fn))).map (fun r => (fn, r)))

/-- Embedding of `GridIndex._setup_filenames`: bucket, sort each bucket, cut
every bucket into `GRID_CHUNKSIZE`-wide slices in filename order, and number
the resulting records with the running counter `fi` (enumeration). -/
def setup_filenames (dsGridChunkSize : Option Nat) (grids : List FNGrid) :
    List BackingFile :=
  (taggedRuns dsGridChunkSize grids).enum.map
    (fun p => BackingFile.mk p.2.1 p.1 p.2.2)

theorem sortBucket_sorted (l : List Int) :
    List.Sorted (· ≤ ·) (sortBucket l) := by
  have h := @List.sorted_mergeSort Int
    (fun a b : Int => decide (a ≤ b))
    (fun a b c hab hbc => by
      simp only [decide_eq_true_iff] at hab hbc ⊢
      omega)
    (fun a b => by
      simp only [Bool.or_eq_true, decide_eq_true_iff]
      omega)
    l
  exact h.imp (fun hab => decide_eq_true_iff.mp hab)

/-- Every slice of a sorted bucket is sorted (it is a sublist). -/
theorem slice_of_sorted (size : Nat) (l : List Int)
    (hl : List.Sorted (· ≤ ·) l) (r : List Int) (hr : r ∈ slices size l) :
    List.Sorted (· ≤ ·) r := by
  rcases List.mem_map.mp hr with ⟨pos, _, hrs⟩
  have hsub : r.Sublist l := by
    rw [← hrs]
    exact ((List.take_sublist _ _).trans (List.drop_sublist _ _))
  exact List.Pairwise.sublist hsub hl

/-- Every slice has at most `size` elements. -/
theorem slice_length_le (size : Nat) (l : List α) (r : List α)
    (hr : r ∈ slices size l) : r.length ≤ size := by
  rcases List.mem_map.mp hr with ⟨pos, _, hrs⟩
  rw [← hrs]
  simp only [pySlice, List.length_take]
  exact inf_le_left

end YtGrid

namespace YtGrid

/-- Every element of a slice comes from the sliced list. -/
theorem slices_subset (size : Nat) (l : List α) (r : List α)
    (hr : r ∈ slices size l) : ∀ x ∈ r, x ∈ l := by
  rcases List.mem_map.mp hr with ⟨pos, _, hrs⟩
  intro x hx
  rw [← hrs] at hx
  exact ((List.take_sublist _ _).trans (List.drop_sublist _ _)).mem hx

theorem snd_mem_of_mem_enumFrom :
    ∀ (l : List α) (n : ℕ) (p : ℕ × α), p ∈ List.enumFrom n l → p.2 ∈ l := by
  intro l
  induction l with
  | nil => intro n p hp; simp [List.enumFrom] at hp
  | cons a l ih =>
    intro n p hp
    rw [List.enumFrom_cons] at hp
    rcases List.mem_cons.mp hp with h | h
    · subst h
      exact List.mem_cons_self _ _
    · exact List.mem_cons_of_mem _ (ih (n + 1) p h)

/-- The distinct sorted filenames are distinct. -/
theorem sortedFilenames_nodup (grids : List FNGrid) :
    (sortedFilenames grids).Nodup :=
  ((List.mergeSort_perm _ _).symm).nodup (List.nodup_dedup _)

/-- A filename outside the sorted key list owns no grids. -/
theorem gridsByFile_eq_nil_of_not_mem (grids : List FNGrid) (fn : String)
    (h : fn ∉ sortedFilenames grids) : gridsByFile grids fn = [] := by
  have hfil : grids.filter (fun g => g.filename = fn) = [] := by
    apply List.filter_eq_nil_iff.mpr
    intro g hg hdec
    apply h
    unfold sortedFilenames
    rw [List.mem_mergeSort, List.mem_dedup]
    exact List.mem_map.mpr ⟨g, hg, by simpa using hdec⟩
  unfold gridsByFile
  rw [hfil]
  rfl

end YtGrid

namespace YtGrid

/-- Enumerating, wrapping into records, filtering on the record's filename
and flattening each record's grid ids is the same as filtering the tagged
runs directly and flattening them. -/
theorem enum_mk_filter_flatMap (fn : String) :
    ∀ (l : List (String × List Int)) (n : ℕ),
      (((List.enumFrom n l).map (fun p => BackingFile.mk p.2.1 p.1 p.2.2)).filter
          (fun bf => bf.filename = fn)).flatMap (fun bf => bf.gridIdValues) =
        ((l.filter (fun q => q.1 = fn)).map (fun q => q.2)).flatten := by
  intro l
  induction l with
  | nil => intro n; rfl
  | cons q l ih =>
    intro n
    rw [List.enumFrom_cons, List.map_cons, List.filter_cons, List.filter_cons]
    by_cases h : q.1 = fn
    · simp only [h, decide_True, if_true]
      rw [List.flatMap_cons, List.map_cons, List.flatten_cons, ih (n + 1)]
    · simp only [h, decide_False, if_false]
      exact ih (n + 1)

/-- Filtering a key-tagged flatMap over distinct keys selects exactly the
segment of the key looked for (or nothing when the key is absent). -/
theorem flatMap_tag_filter (fn : String) (F : String → List (List Int)) :
    ∀ (fns : List String), fns.Nodup →
      ((fns.flatMap (fun fn2 => (F fn2).map (fun r => (fn2, r)))).filter
          (fun q => q.1 = fn)) =
        if fn ∈ fns then (F fn).map (fun r => (fn, r)) else [] := by
  intro fns
  induction fns with
  | nil => intro _; simp
  | cons a fns ih =>
    intro hnd
    rcases List.nodup_cons.mp hnd with ⟨ha, hnd2⟩
    rw [List.flatMap_cons, List.filter_append, ih hnd2]
    by_cases h : a = fn
    · subst h
      have h1 : ((F a).map (fun r => (a, r))).filter (fun q => q.1 = a) =
          (F a).map (fun r => (a, r)) := by
        apply List.filter_eq_self.mpr
        intro q hq
        rcases List.mem_map.mp hq with ⟨r, _, hr⟩
        rw [← hr]
        simp
      rw [h1, if_neg ha, if_pos (List.mem_cons_self a fns)]
      simp
    · have h1 : ((F a).map (fun r => (a, r))).filter (fun q => q.1 = fn) = [] := by
        apply List.filter_eq_nil_iff.mpr
        intro q hq
        rcases List.mem_map.mp hq with ⟨r, _, hr⟩
        rw [← hr]
        simpa using h
      rw [h1]
      by_cases h2 : fn ∈ fns
      · rw [if_pos h2, if_pos (List.mem_cons_of_mem a h2)]
        rfl
      · rw [if_neg h2, if_neg (fun hc => by
          rcases List.mem_cons.mp hc with h3 | h3
          · exact h h3.symm
          · exact h2 h3)]
        rfl

end YtGrid

namespace YtGrid

/-- **C9** — backing-file grouping: (i) the emitted records carry the
sequential indices `0, 1, 2, ...` across all files with no gaps; (ii) every
record's grid-id list is sorted ascending, holds at most `GRID_CHUNKSIZE`
ids, and holds only offset-corrected ids of grids declaring the record's
filename; (iii) for every filename, the records carrying it concatenate, in
order, to exactly that filename's ascending-sorted bucket — i.e. the bucket
is split into consecutive runs across its records. -/
theorem setup_filenames_grouping (cfg : Option Nat) (grids : List FNGrid) :
    ((setup_filenames cfg grids).map (fun bf => bf.index) =
      List.range (setup_filenames cfg grids).length) ∧
    (∀ bf ∈ setup_filenames cfg grids,
      List.Sorted (· ≤ ·) bf.gridIdValues ∧
      bf.gridIdValues.length ≤ gridChunkSizeOr cfg ∧
      ∀ gid ∈ bf.gridIdValues, ∃ g ∈ grids,
        g.filename = bf.filename ∧ gid = g.id - g.idOffset) ∧
    (∀ fn : String,
      ((setup_filenames cfg grids).filter (fun bf => bf.filename = fn)).flatMap
          (fun bf => bf.gridIdValues) =
        sortBucket (gridsByFile grids fn)) := by
  refine ⟨?_, ?_, ?_⟩
  · unfold setup_filenames
    rw [List.map_map]
    have hcomp : ((fun bf : BackingFile => bf.index) ∘
        (fun p : ℕ × (String × List Int) => BackingFile.mk p.2.1 p.1 p.2.2)) =
        Prod.fst := rfl
    rw [hcomp, List.enum_map_fst, List.length_map, List.enum_length]
  · intro bf hbf
    unfold setup_filenames at hbf
    rcases List.mem_map.mp hbf with ⟨p, hp, hmk⟩
    have hp2 : p.2 ∈ taggedRuns cfg grids := by
      apply snd_mem_of_mem_enumFrom _ 0 p
      rw [← List.enum_eq_enumFrom]
      exact hp
    rcases List.mem_flatMap.mp hp2 with ⟨fn, hfn, hmem⟩
    rcases List.mem_map.mp hmem with ⟨r, hr, hpr⟩
    subst hmk
    refine ⟨?_, ?_, ?_⟩
    · show List.Sorted (· ≤ ·) p.2.2
      rw [← hpr]
      exact slice_of_sorted _ _ (sortBucket_sorted _) r hr
    · show (p.2.2).length ≤ gridChunkSizeOr cfg
      rw [← hpr]
      exact slice_length_le _ _ r hr
    · show ∀ gid ∈ p.2.2, ∃ g ∈ grids,
        g.filename = p.2.1 ∧ gid = g.id - g.idOffset
      rw [← hpr]
      intro gid hgid
      have h1 : gid ∈ sortBucket (gridsByFile grids fn) :=
        slices_subset _ _ r hr gid hgid
      have h2 : gid ∈ gridsByFile grids fn := List.mem_mergeSort.mp h1
      rcases List.mem_map.mp h2 with ⟨g, hg, hgeq⟩
      rcases List.mem_filter.mp hg with ⟨hgrids, hdec⟩
      exact ⟨g, hgrids, by simpa using hdec, hgeq.symm⟩
  · intro fn
    unfold setup_filenames
    rw [List.enum_eq_enumFrom, enum_mk_filter_flatMap fn _ 0]
    unfold taggedRuns
    rw [flatMap_tag_filter fn _ _ (sortedFilenames_nodup grids)]
    by_cases h : fn ∈ sortedFilenames grids
    · rw [if_pos h, List.map_map]
      have hcomp : ((fun q : String × List Int => q.2) ∘
          (fun r : List Int => (fn, r))) = (id : List Int → List Int) := rfl
      rw [hcomp, List.map_id]
      rw [slices_eq_splitRuns _ (gridChunkSizeOr_pos cfg)]
      exact splitRuns_flatten _ (gridChunkSizeOr_pos cfg) _
    · rw [if_neg h, gridsByFile_eq_nil_of_not_mem grids fn h]
      simp [sortBucket]

end YtGrid
